import Mathlib

/-!
Verification development for the ordered-dithering core of the ditherpunker
repository.

The Rust source is shallowly embedded as follows:
* f32 values are modelled as exact rationals (ℚ); the algorithms only
  subtract, multiply-add and compare threshold values, and every claim is
  about the pattern of those comparisons, which the exact model preserves.
* usize values are modelled as ℕ; the two bit-level intrinsics the code
  uses (leading_zeros, and the halving loop of lanes_fit) are modelled at
  the 64-bit width of the target (sizeAux with fuel 64).
* Panics (failed slice index, Option::unwrap on None, rayon chunk size 0)
  are modelled by the KResult error monad with an explicit panic kind, so
  that out-of-bounds panics can be told apart from unwrap panics.
* rayon's par_chunks_mut(width) row parallelism writes disjoint rows, so it
  is modelled as the deterministic row-major concatenation of the per-row
  results (the ordering guarantee of the spec).
-/

/-! ### Basic data model (src/utils/pixel.rs, src/color_palette.rs) -/

/-- RGB pixel: four normalized channels (source: utils/pixel.rs). -/
structure RGB where
  r : ℚ
  g : ℚ
  b : ℚ
  a : ℚ
deriving DecidableEq, Repr

/-- One palette entry: color plus threshold scale/offset
(source: color_palette.rs, ColorMapElement). -/
structure ColorMapElement where
  color : RGB
  scale : ℚ
  offset : ℚ
deriving DecidableEq, Repr

/-- Default element used as a getD fallback in lemma statements; its
scale and offset are 0, matching the padding lanes of the fit strategy. -/
def defaultCME : ColorMapElement := ⟨⟨0, 0, 0, 0⟩, 0, 0⟩

/-! ### Numeric utilities (src/utils/num.rs) -/

/-- Number of significant bits of n, computed with explicit fuel; with fuel
64 this is the bit width used by usize::leading_zeros on the 64-bit target.
Structural in the fuel so that the kernel can evaluate it. -/
def sizeAux : ℕ → ℕ → ℕ
  | 0, _ => 0
  | fuel + 1, n => if n = 0 then 0 else sizeAux fuel (n / 2) + 1

/-- Bit width of the modelled usize. -/
def usizeBits : ℕ := 64

/-- usize::leading_zeros for the 64-bit target. -/
def leadingZeros (n : ℕ) : ℕ := usizeBits - sizeAux usizeBits n

/-- Closest power of two to an unsigned integer, ties resolved toward the
lower power (source: utils/num.rs, closest_pow_2, instantiated at usize). -/
def closest_pow_2 (n : ℕ) : ℕ :=
  if n = 0 then 1
  else
    let leading_zeros := leadingZeros n
    let highest_bit_pos := usizeBits - 1 - leading_zeros
    let lower := 1 <<< highest_bit_pos
    if leading_zeros = 0 then lower
    else
      let upper := lower <<< 1
      if n - lower ≤ upper - n then lower else upper

/-- The halving loop of BayerStrategy::lanes_fit: while bound < lanes,
halve lanes. Fuel 64 is exact for any starting value below 2^64. -/
def halveWhileGt : ℕ → ℕ → ℕ → ℕ
  | 0, lanes, _ => lanes
  | fuel + 1, lanes, bound =>
    if bound < lanes then halveWhileGt fuel (lanes >>> 1) bound else lanes

/-! ### BayerConfig (src/dithering/threshold/bayer_transform.rs) -/

/-- Shared configuration for Bayer transforms (source: bayer_transform.rs,
BayerConfig). side_mask is side_size - 1 where side_size = 2^order. -/
structure BayerConfig where
  matrix : List ℚ
  map : List ColorMapElement
  order : ℕ
  side_mask : ℕ
deriving DecidableEq, Repr

/-- BayerConfig::new. The assert! that the matrix length matches the order
is modelled by returning none (construction aborts). -/
def BayerConfig.new (order : ℕ) (matrix : List ℚ) (map : List ColorMapElement) :
    Option BayerConfig :=
  let side_size := 1 <<< order
  if side_size * side_size = matrix.length then
    some { matrix := matrix, map := map, order := order, side_mask := side_size - 1 }
  else none

/-- BayerConfig::bayer_idx: index in the bayer matrix for a pixel coordinate. -/
def BayerConfig.bayer_idx (self : BayerConfig) (x y : ℕ) : ℕ :=
  ((y &&& self.side_mask) <<< self.order) + (x &&& self.side_mask)

/-- precompute_tiled_rows (source: utils/transform.rs): row-major buffer of
tile_size rows of row_size entries, entry (x,y) at flat index y*row_size+x.
The unsafe uninitialized buffer is fully written before use, so a pure map
is an exact model. -/
def precompute_tiled_rows {α : Type} (tile_size row_size : ℕ) (f : ℕ → ℕ → ℕ → α) :
    List α :=
  ((List.range tile_size).map
    (fun y => (List.range row_size).map (fun x => f x y (y * row_size + x)))).flatten

/-- BayerConfig::cache_tiled_pattern: the width-tiled complemented matrix.
The matrix read is in bounds for every config built by BayerConfig::new
(bayer_idx is below the matrix length, proved below), so getD is exact. -/
def BayerConfig.cache_tiled_pattern (self : BayerConfig) (width : ℕ) : List ℚ :=
  precompute_tiled_rows (1 <<< self.order) width
    (fun x y _ => 1 - self.matrix.getD (self.bayer_idx x y) 0)

/-! ### Strategy selection (bayer_transform.rs, BayerStrategy) -/

/-- Strategy enum (source: bayer_transform.rs, BayerStrategy). -/
inductive BayerStrategy where
  | Scalar
  | Simd (lanes : ℕ)
  | SimdFixed (lanes : ℕ)
deriving DecidableEq, Repr

/-- BayerStrategy::lanes_fit: best-fit lane count. Note that the halving
loop of the source compares against lane_hint, the function argument. -/
def BayerStrategy.lanes_fit (lane_hint : ℕ) : ℕ :=
  halveWhileGt usizeBits (closest_pow_2 lane_hint) lane_hint

/-- BayerStrategy::auto. The detected hardware vector width (the
multiversion suggestion overridden by the runtime x86 feature checks) is an
environment input and is passed in as lane_hint. -/
def BayerStrategy.auto (config : BayerConfig) (lane_hint : ℕ) : BayerStrategy :=
  let size_hint := config.map.length
  if size_hint < 2 then .Scalar
  else if size_hint = lane_hint then .SimdFixed lane_hint
  else
    let lanes := BayerStrategy.lanes_fit size_hint
    if lanes < 2 ∨ 16 < lanes then .Scalar
    else .Simd lanes

/-! ### Panic model -/

/-- Panic causes distinguished by the model: slice/index out of bounds,
Option::unwrap on None, and rayon chunk size zero. -/
inductive PanicKind where
  | indexOOB
  | unwrapNone
  | zeroChunk
deriving DecidableEq, Repr

/-- Result of running a piece of code that may panic. -/
inductive KResult (α : Type) : Type where
  | ok (a : α)
  | panic (k : PanicKind)
deriving DecidableEq, Repr

/-- Panicking slice index: l[i] in Rust. -/
def exGet {α : Type} (l : List α) (i : ℕ) : KResult α :=
  match l.get? i with
  | some a => .ok a
  | none => .panic .indexOOB

/-- Effectful map over a list, stopping at the first panic (models a loop
whose body may panic). -/
def kmapM {α β : Type} (f : α → KResult β) : List α → KResult (List β)
  | [] => .ok []
  | a :: l =>
    match f a with
    | .panic k => .panic k
    | .ok b =>
      match kmapM f l with
      | .panic k => .panic k
      | .ok bs => .ok (b :: bs)

/-- Number of chunks produced by par_chunks_mut(width) on a slice of length
out_len (width > 0). -/
def numChunks (width out_len : ℕ) : ℕ := (out_len + width - 1) / width

/-! ### Per-pixel classification loops (src/dithering/threshold/multi_impl.rs) -/

/-- The scalar palette scan: first entry of the map whose threshold test
passes (the inner for over config.map in scalar_par). -/
def scalar_scan (v t : ℚ) : List ColorMapElement → Option RGB
  | [] => none
  | m :: rest =>
    if v < t * m.scale + m.offset then some m.color else scalar_scan v t rest

/-- Lane lane of the comparison bitmask pixel.simd_lt(t * scale + offset):
set iff the lane exists (lane < LANES) and the comparison holds there. -/
def simdLaneLt (scale offset : List ℚ) (v t : ℚ) (lane : ℕ) : Bool :=
  decide (lane < scale.length) &&
    decide (v < t * scale.getD lane 0 + offset.getD lane 0)

/-- The SimdFixed palette scan: first (lane, map entry) pair whose bitmask
bit is set (the inner for over config.map.iter().enumerate() in fixed_par). -/
def fixed_scan (scale offset : List ℚ) (v t : ℚ) :
    List ColorMapElement → ℕ → Option RGB
  | [], _ => none
  | m :: rest, lane =>
    if simdLaneLt scale offset v t lane then some m.color
    else fixed_scan scale offset v t rest (lane + 1)

/-- Cached data for one fit compute pass (source: bayer_transform.rs,
SimdFitPassData). scale and offset have LANES entries. -/
structure SimdFitPassData where
  size : ℕ
  scale : List ℚ
  offset : List ℚ
deriving DecidableEq, Repr

/-- Inner lane loop of fit_par: first lane in [lane, lane+remaining) whose
bitmask bit is set; called with lane = 0, remaining = pool.size. -/
def fit_lane_scan (scale offset : List ℚ) (v t : ℚ) : ℕ → ℕ → Option ℕ
  | _, 0 => none
  | lane, remaining + 1 =>
    if simdLaneLt scale offset v t lane then some lane
    else fit_lane_scan scale offset v t (lane + 1) remaining

/-- Outer compute loop of fit_par over the pass data, starting at pass iter
with the given number of passes remaining: ok (some c) means a palette color
was found and the loop broke, ok none means the loop fell through. -/
def fit_loop (map : List ColorMapElement) (pass_data : List SimdFitPassData)
    (lanes : ℕ) (v t : ℚ) : ℕ → ℕ → KResult (Option RGB)
  | _, 0 => .ok none
  | iter, remaining + 1 =>
    match exGet pass_data iter with
    | .panic k => .panic k
    | .ok pool =>
      match fit_lane_scan pool.scale pool.offset v t 0 pool.size with
      | some lane =>
        match exGet map (iter * lanes + lane) with
        | .panic k => .panic k
        | .ok m => .ok (some m.color)
      | none => fit_loop map pass_data lanes v t (iter + 1) remaining

/-! ### Row kernels.
Each kernel chunks the output buffer into width-sized rows; row y reads the
tiled threshold slice tiled_bayer[bayer_start .. bayer_start + width] with
bayer_start = (y &&& side_mask) <<< order, exactly as the source does. -/

/-- One output row of scalar_par. -/
def scalar_row (in_buf tiled_bayer : List ℚ) (config : BayerConfig)
    (fallback_color : RGB) (width y rowLen : ℕ) : KResult (List RGB) :=
  let bayer_row_idx := y &&& config.side_mask
  let bayer_start := bayer_row_idx <<< config.order
  if bayer_start + width ≤ tiled_bayer.length then
    let bayer_row := (tiled_bayer.drop bayer_start).take width
    let idx_offset := y * width
    kmapM (fun x =>
      match exGet bayer_row x with
      | .panic k => .panic k
      | .ok bayer =>
        match exGet in_buf (idx_offset + x) with
        | .panic k => .panic k
        | .ok v => .ok ((scalar_scan v bayer config.map).getD fallback_color))
      (List.range rowLen)
  else .panic .indexOOB

/-- multi_impl::scalar_par. The output buffer is represented by its length;
the row-parallel write of disjoint rows is their in-order concatenation. -/
def scalar_par (in_buf : List ℚ) (in_shape : ℕ × ℕ) (out_len : ℕ)
    (tiled_bayer : List ℚ) (config : BayerConfig) : KResult (List RGB) :=
  let width := in_shape.1
  match config.map.getLast? with
  | none => .panic .unwrapNone
  | some lastEl =>
    if width = 0 then .panic .zeroChunk
    else
      match kmapM (fun y =>
          scalar_row in_buf tiled_bayer config lastEl.color width y
            (min width (out_len - y * width)))
        (List.range (numChunks width out_len)) with
      | .panic k => .panic k
      | .ok rows => .ok rows.flatten

/-- One output row of fixed_par; the pixel value is read before the
threshold, as in the source. -/
def fixed_row (in_buf tiled_bayer : List ℚ) (config : BayerConfig)
    (fallback_color : RGB) (scale offset : List ℚ) (width y rowLen : ℕ) :
    KResult (List RGB) :=
  let bayer_row_idx := y &&& config.side_mask
  let bayer_start := bayer_row_idx <<< config.order
  if bayer_start + width ≤ tiled_bayer.length then
    let bayer_row := (tiled_bayer.drop bayer_start).take width
    let idx_offset := y * width
    kmapM (fun x =>
      match exGet in_buf (idx_offset + x) with
      | .panic k => .panic k
      | .ok v =>
        match exGet bayer_row x with
        | .panic k => .panic k
        | .ok bayer =>
          .ok ((fixed_scan scale offset v bayer config.map 0).getD fallback_color))
      (List.range rowLen)
  else .panic .indexOOB

/-- multi_impl::fixed_par. -/
def fixed_par (in_buf : List ℚ) (in_shape : ℕ × ℕ) (out_len : ℕ)
    (tiled_bayer : List ℚ) (config : BayerConfig) (scale offset : List ℚ) :
    KResult (List RGB) :=
  let width := in_shape.1
  match config.map.getLast? with
  | none => .panic .unwrapNone
  | some lastEl =>
    if width = 0 then .panic .zeroChunk
    else
      match kmapM (fun y =>
          fixed_row in_buf tiled_bayer config lastEl.color scale offset width y
            (min width (out_len - y * width)))
        (List.range (numChunks width out_len)) with
      | .panic k => .panic k
      | .ok rows => .ok rows.flatten

/-- One output row of fit_par. -/
def fit_row (in_buf tiled_bayer : List ℚ) (config : BayerConfig)
    (fallback_color : RGB) (pass_data : List SimdFitPassData)
    (lanes compute_iters : ℕ) (width y rowLen : ℕ) : KResult (List RGB) :=
  let bayer_row_idx := y &&& config.side_mask
  let bayer_start := bayer_row_idx <<< config.order
  if bayer_start + width ≤ tiled_bayer.length then
    let bayer_row := (tiled_bayer.drop bayer_start).take width
    let idx_offset := y * width
    kmapM (fun x =>
      match exGet in_buf (idx_offset + x) with
      | .panic k => .panic k
      | .ok v =>
        match exGet bayer_row x with
        | .panic k => .panic k
        | .ok bayer =>
          match fit_loop config.map pass_data lanes v bayer 0 compute_iters with
          | .panic k => .panic k
          | .ok (some c) => .ok c
          | .ok none => .ok fallback_color)
      (List.range rowLen)
  else .panic .indexOOB

/-- multi_impl::fit_par. -/
def fit_par (in_buf : List ℚ) (in_shape : ℕ × ℕ) (out_len : ℕ)
    (tiled_bayer : List ℚ) (config : BayerConfig)
    (pass_data : List SimdFitPassData) (lanes compute_iters : ℕ) :
    KResult (List RGB) :=
  let width := in_shape.1
  match config.map.getLast? with
  | none => .panic .unwrapNone
  | some lastEl =>
    if width = 0 then .panic .zeroChunk
    else
      match kmapM (fun y =>
          fit_row in_buf tiled_bayer config lastEl.color pass_data lanes
            compute_iters width y (min width (out_len - y * width)))
        (List.range (numChunks width out_len)) with
      | .panic k => .panic k
      | .ok rows => .ok rows.flatten

/-! ### Strategy construction (bayer_transform.rs) -/

/-- Number of compute passes per pixel: config.map.len().div_ceil(LANES)
(source: SimdFit::new). -/
def SimdFit.computeIters (map_len lanes : ℕ) : ℕ := (map_len + lanes - 1) / lanes

/-- Pass data for compute pass iter of SimdFit::new: the slice of the map
covered by this pass, its scales/offsets padded to LANES with zeros. The
source slice config.map[range_start..range_end] is always in bounds for
these ranges, so drop/take is an exact model. -/
def SimdFit.mkPass (map : List ColorMapElement) (lanes compute_iters iter : ℕ) :
    SimdFitPassData :=
  let range_size :=
    if iter = compute_iters - 1 then
      if map.length % lanes = 0 then lanes else map.length % lanes
    else lanes
  let remainder := lanes - range_size
  let range_start := iter * lanes
  { size := range_size
    scale := ((map.drop range_start).take range_size).map (fun c => c.scale) ++
      List.replicate remainder 0
    offset := ((map.drop range_start).take range_size).map (fun c => c.offset) ++
      List.replicate remainder 0 }

/-- The full pass-data vector built by SimdFit::new (the uninitialized
buffer is fully written by the construction loop). -/
def SimdFit.passData (map : List ColorMapElement) (lanes : ℕ) :
    List SimdFitPassData :=
  (List.range (SimdFit.computeIters map.length lanes)).map
    (SimdFit.mkPass map lanes (SimdFit.computeIters map.length lanes))

/-- Precomputed per-lane scale/offset vectors of SimdFixed (source:
SimdFixed::new; both have exactly LANES = map.len() entries). -/
structure SimdFixedData where
  scale : List ℚ
  offset : List ℚ
deriving DecidableEq, Repr

/-- SimdFixed::new: asserts color map size == SIMD_LANES (none on panic);
the scale/offset arrays are filled from the map in order. -/
def SimdFixed.new (lanes : ℕ) (config : BayerConfig) : Option SimdFixedData :=
  if config.map.length = lanes then
    some { scale := config.map.map (fun c => c.scale)
           offset := config.map.map (fun c => c.offset) }
  else none

/-- A built transform (the BayerTransformImpl enum, with the per-variant
precomputed state). -/
inductive BuiltTransform where
  | scalarT (config : BayerConfig)
  | simdFitT (lanes : ℕ) (config : BayerConfig) (pass : List SimdFitPassData)
      (compute_iters : ℕ)
  | simdFixedT (lanes : ℕ) (config : BayerConfig) (sd : SimdFixedData)

/-- BayerStrategy::build: the match arms for lanes 2, 4, 8 and 16; any other
Simd/SimdFixed lane count hits the catch-all panic (none). -/
def BayerStrategy.build : BayerStrategy → BayerConfig → Option BuiltTransform
  | .Scalar, config => some (.scalarT config)
  | .Simd lanes, config =>
    if lanes = 2 ∨ lanes = 4 ∨ lanes = 8 ∨ lanes = 16 then
      some (.simdFitT lanes config (SimdFit.passData config.map lanes)
        (SimdFit.computeIters config.map.length lanes))
    else none
  | .SimdFixed lanes, config =>
    if lanes = 2 ∨ lanes = 4 ∨ lanes = 8 ∨ lanes = 16 then
      (SimdFixed.new lanes config).map (.simdFixedT lanes config)
    else none

/-! ### Strategy prepare + apply compositions.
Each TextureTransform first runs prepare, which caches
config.cache_tiled_pattern(width) for the input width, and apply then runs
the kernel on that cache; these run functions compose the two, with the
output buffer of the same shape as the input (the debug-asserted
precondition). -/

/-- Scalar strategy: prepare(width) then apply. -/
def ScalarStrategy.run (config : BayerConfig) (in_buf : List ℚ)
    (width height out_len : ℕ) : KResult (List RGB) :=
  scalar_par in_buf (width, height) out_len
    (config.cache_tiled_pattern width) config

/-- SimdFixed strategy with its precomputed data: prepare(width) then apply. -/
def SimdFixedStrategy.run (config : BayerConfig) (sd : SimdFixedData)
    (in_buf : List ℚ) (width height out_len : ℕ) : KResult (List RGB) :=
  fixed_par in_buf (width, height) out_len
    (config.cache_tiled_pattern width) config sd.scale sd.offset

/-- SimdFit strategy (lane count lanes): prepare(width) then apply. -/
def SimdFitStrategy.run (lanes : ℕ) (config : BayerConfig) (in_buf : List ℚ)
    (width height out_len : ℕ) : KResult (List RGB) :=
  fit_par in_buf (width, height) out_len
    (config.cache_tiled_pattern width) config
    (SimdFit.passData config.map lanes) lanes
    (SimdFit.computeIters config.map.length lanes)

/-! ### Pipeline combinator (src/transform/pipe.rs) -/

/-- Owned pixel buffer with its shape (source: texture.rs, Texture). -/
structure Texture (α : Type) where
  width : ℕ
  height : ℕ
  planes : ℕ
  buf : List α

/-- TextureRef::shape. -/
def Texture.shape {α : Type} (t : Texture α) : ℕ × ℕ × ℕ :=
  (t.width, t.height, t.planes)

/-- The TextureTransform contract: apply reads the input view and rewrites
the output view (possibly updating internal state σ); prepare is one-time
setup keyed on the shape pair. -/
structure TextureTransform (σ α β : Type) where
  apply : σ → List α → List β → σ × List β
  prepare : σ → ℕ × ℕ × ℕ → ℕ × ℕ × ℕ → σ

/-- State of the Pipeline combinator: the two stages' states and the owned
intermediate B-shaped texture (source: pipe.rs, Pipeline). -/
structure Pipeline (σ₁ σ₂ β : Type) where
  t1 : σ₁
  t2 : σ₂
  b : Texture β

/-- Pipeline::apply: t1 writes the intermediate buffer from the input, then
t2 writes the output from the intermediate buffer. -/
def Pipeline.apply {σ₁ σ₂ α β γ : Type} (T1 : TextureTransform σ₁ α β)
    (T2 : TextureTransform σ₂ β γ) (p : Pipeline σ₁ σ₂ β) (input : List α)
    (output : List γ) : Pipeline σ₁ σ₂ β × List γ :=
  let r1 := T1.apply p.t1 input p.b.buf
  let r2 := T2.apply p.t2 r1.2 output
  ({ t1 := r1.1, t2 := r2.1, b := { p.b with buf := r1.2 } }, r2.2)

/-- Pipeline::prepare: forwards (in_shape, b_shape) to t1 and
(b_shape, out_shape) to t2, where b_shape is the intermediate's shape. -/
def Pipeline.prepare {σ₁ σ₂ α β γ : Type} (T1 : TextureTransform σ₁ α β)
    (T2 : TextureTransform σ₂ β γ) (p : Pipeline σ₁ σ₂ β)
    (in_shape out_shape : ℕ × ℕ × ℕ) : Pipeline σ₁ σ₂ β :=
  let b_shape := p.b.shape
  { p with t1 := T1.prepare p.t1 in_shape b_shape
           t2 := T2.prepare p.t2 b_shape out_shape }

/-! ### Spec-side reference models -/

/-- Modelled from the spec: the auto decision table of section 4.3 for the
sequential case, as the spec words it: n < 2 gives Scalar; n == w gives
SimdFixed with lanes w; otherwise lanes = lanes_fit(n), Scalar when lanes
is outside [2,16], else the SimdFit-backed Simd variant. -/
def autoSpecTable (n w : ℕ) : BayerStrategy :=
  if n < 2 then .Scalar
  else if n = w then .SimdFixed w
  else
    let lanes := BayerStrategy.lanes_fit n
    if lanes < 2 ∨ 16 < lanes then .Scalar
    else .Simd lanes

/-- Modelled from the spec: the per-pixel threshold of sections 4.2/4.4,
t(x,y) = 1 - matrix[bayer_idx(x,y)]. -/
def specThreshold (config : BayerConfig) (x y : ℕ) : ℚ :=
  1 - config.matrix.getD (config.bayer_idx x y) 0

/-- Modelled from the spec: the scalar reference output of section 4.4 -
for each pixel, the first palette entry whose test v < t*scale + offset
passes, the last entry's color when none does. -/
def specScalarOutput (config : BayerConfig) (in_buf : List ℚ)
    (width height : ℕ) : List RGB :=
  ((List.range height).map (fun y => (List.range width).map (fun x =>
    (scalar_scan (in_buf.getD (y * width + x) 0) (specThreshold config x y)
      config.map).getD ((config.map.getLastD defaultCME).color)))).flatten

/-! ### Concrete scenario data used by the end-to-end claims -/

/-- Black, full alpha (the first entry of the repository's default map). -/
def blackRGB : RGB := ⟨0, 0, 0, 1⟩

/-- White, full alpha (the second entry of the repository's default map). -/
def whiteRGB : RGB := ⟨1, 1, 1, 1⟩

/-- The two-entry black/white palette with scale 1 and offset 0
(color_palette.rs, DEFAULT_COLOR_MAP). -/
def mapBW : List ColorMapElement := [⟨blackRGB, 1, 0⟩, ⟨whiteRGB, 1, 0⟩]

/-- The end-to-end scenario config: 2x2 matrix of order 1 with values
[0.0, 0.5, 0.75, 0.25] and the black/white palette; equal to the value
produced by BayerConfig::new (side_mask = 1). -/
def cfgC3 : BayerConfig :=
  { matrix := [0, 1/2, 3/4, 1/4], map := mapBW, order := 1, side_mask := 1 }

/-- A 24-entry-palette config over the trivial order-0 matrix, as produced
by BayerConfig::new. -/
def cfg24 : BayerConfig :=
  { matrix := [0], map := List.replicate 24 defaultCME, order := 0, side_mask := 0 }

/-- An empty-palette config over the trivial order-0 matrix, as produced by
BayerConfig::new. -/
def cfgEmptyMap : BayerConfig :=
  { matrix := [0], map := [], order := 0, side_mask := 0 }

/-- Proof-side reference scan: index (in palette order) of the first
palette entry whose threshold test passes. -/
def scalarScanIdx (v t : ℚ) : List ColorMapElement → Option ℕ
  | [] => none
  | m :: rest =>
    if v < t * m.scale + m.offset then some 0
    else (scalarScanIdx v t rest).map (fun j => j + 1)

/-! ### Generic lemmas about the panic model -/

lemma exGet_eq_ok {α : Type} (l : List α) (i : ℕ) (d : α) (h : i < l.length) :
    exGet l i = .ok (l.getD i d) := by
  unfold exGet
  rw [List.get?_eq_getElem?, List.getElem?_eq_getElem h,
    List.getD_eq_getElem?_getD, List.getElem?_eq_getElem h]
  rfl

lemma exGet_eq_panic {α : Type} (l : List α) (i : ℕ) (h : l.length ≤ i) :
    exGet l i = .panic .indexOOB := by
  unfold exGet
  rw [List.get?_len_le h]

lemma kmapM_congr {α β : Type} {f g : α → KResult β} :
    ∀ l : List α, (∀ a ∈ l, f a = g a) → kmapM f l = kmapM g l := by
  intro l
  induction l with
  | nil => intro _; rfl
  | cons a l ih =>
    intro h
    have ha := h a (List.mem_cons_self a l)
    have hl := ih (fun b hb => h b (List.mem_cons_of_mem a hb))
    simp only [kmapM, ha, hl]

lemma kmapM_ok {α β : Type} {f : α → KResult β} {g : α → β} :
    ∀ l : List α, (∀ a ∈ l, f a = .ok (g a)) → kmapM f l = .ok (l.map g) := by
  intro l
  induction l with
  | nil => intro _; rfl
  | cons a l ih =>
    intro h
    have ha := h a (List.mem_cons_self a l)
    have hl := ih (fun b hb => h b (List.mem_cons_of_mem a hb))
    simp only [kmapM, ha, hl, List.map_cons]

lemma kmapM_ne_panic {α β : Type} {f : α → KResult β} {k : PanicKind} :
    ∀ l : List α, (∀ a ∈ l, f a ≠ .panic k) → kmapM f l ≠ .panic k := by
  intro l
  induction l with
  | nil => intro _ h; exact KResult.noConfusion h
  | cons a l ih =>
    intro h
    have ha := h a (List.mem_cons_self a l)
    have hl := ih (fun b hb => h b (List.mem_cons_of_mem a hb))
    simp only [kmapM]
    cases hfa : f a with
    | panic k2 =>
      intro hcon
      apply ha
      rw [hfa]
      cases hcon
      rfl
    | ok b =>
      cases hrest : kmapM f l with
      | panic k2 =>
        intro hcon
        apply hl
        rw [hrest]
        cases hcon
        rfl
      | ok bs => exact fun hcon => KResult.noConfusion hcon

/-! ### Shape of the tiled threshold cache -/

lemma sum_map_const_nat {α : Type} (l : List α) (c : ℕ) :
    (l.map (fun _ => c)).sum = l.length * c := by
  induction l with
  | nil => simp
  | cons a l ih => simp [ih, Nat.succ_mul, Nat.add_comm]

lemma length_precompute_tiled_rows {α : Type} (tile_size row_size : ℕ)
    (f : ℕ → ℕ → ℕ → α) :
    (precompute_tiled_rows tile_size row_size f).length = tile_size * row_size := by
  unfold precompute_tiled_rows
  rw [List.length_flatten]
  rw [List.map_map]
  have hmap : (List.range tile_size).map
      (List.length ∘ fun y => (List.range row_size).map (fun x => f x y (y * row_size + x))) =
      (List.range tile_size).map (fun _ => row_size) := by
    apply List.map_congr_left
    intro y _
    simp
  rw [hmap, sum_map_const_nat, List.length_range]

lemma length_cache_tiled_pattern (config : BayerConfig) (width : ℕ) :
    (config.cache_tiled_pattern width).length = (1 <<< config.order) * width :=
  length_precompute_tiled_rows _ _ _

/-! ### The palette scans of the three kernels agree -/

lemma fixed_scan_eq_scalar_scan_aux (v t : ℚ) :
    ∀ (rest pre : List ColorMapElement),
      fixed_scan ((pre ++ rest).map (fun c => c.scale))
        ((pre ++ rest).map (fun c => c.offset)) v t rest pre.length =
      scalar_scan v t rest := by
  intro rest
  induction rest with
  | nil => intro pre; rfl
  | cons m rest2 ih =>
    intro pre
    have hlt : pre.length < ((pre ++ m :: rest2).map (fun c => c.scale)).length := by
      simp
    have hsc : ((pre ++ m :: rest2).map (fun c => c.scale)).getD pre.length 0 = m.scale := by
      rw [List.map_append]
      rw [List.getD_append_right _ _ _ _ (by simp)]
      simp
    have hof : ((pre ++ m :: rest2).map (fun c => c.offset)).getD pre.length 0 = m.offset := by
      rw [List.map_append]
      rw [List.getD_append_right _ _ _ _ (by simp)]
      simp
    show (if simdLaneLt _ _ v t pre.length then some m.color else _) = _
    rw [show simdLaneLt ((pre ++ m :: rest2).map (fun c => c.scale))
        ((pre ++ m :: rest2).map (fun c => c.offset)) v t pre.length =
        decide (v < t * m.scale + m.offset) from by
      unfold simdLaneLt
      rw [hsc, hof, decide_eq_true hlt, Bool.true_and]]
    show _ = scalar_scan v t (m :: rest2)
    unfold scalar_scan
    by_cases hc : v < t * m.scale + m.offset
    · rw [decide_eq_true hc, if_pos hc]
      rfl
    · rw [decide_eq_false hc, if_neg hc]
      have := ih (pre ++ [m])
      rw [List.append_assoc, List.singleton_append, List.length_append,
        List.length_singleton] at this
      simpa using this

lemma fixed_scan_eq_scalar_scan (mp : List ColorMapElement) (v t : ℚ) :
    fixed_scan (mp.map (fun c => c.scale)) (mp.map (fun c => c.offset)) v t mp 0 =
      scalar_scan v t mp := by
  have := fixed_scan_eq_scalar_scan_aux v t mp []
  simpa using this

lemma scalar_scan_eq_idx (v t : ℚ) :
    ∀ l : List ColorMapElement,
      scalar_scan v t l =
        (scalarScanIdx v t l).map (fun j => (l.getD j defaultCME).color) := by
  intro l
  induction l with
  | nil => rfl
  | cons m rest ih =>
    unfold scalar_scan scalarScanIdx
    by_cases hc : v < t * m.scale + m.offset
    · rw [if_pos hc, if_pos hc]
      rfl
    · rw [if_neg hc, if_neg hc, ih, Option.map_map]
      rfl

lemma scalarScanIdx_lt (v t : ℚ) :
    ∀ (l : List ColorMapElement) (j : ℕ), scalarScanIdx v t l = some j → j < l.length := by
  intro l
  induction l with
  | nil => intro j h; exact Option.noConfusion h
  | cons m rest ih =>
    intro j h
    unfold scalarScanIdx at h
    by_cases hc : v < t * m.scale + m.offset
    · rw [if_pos hc] at h
      cases h
      simp
    · rw [if_neg hc] at h
      rcases Option.map_eq_some'.1 h with ⟨j2, hj2, hj⟩
      have := ih j2 hj2
      simp only [List.length_cons]
      omega

lemma scalar_scan_append (v t : ℚ) (l1 l2 : List ColorMapElement) :
    scalar_scan v t (l1 ++ l2) = (scalar_scan v t l1).or (scalar_scan v t l2) := by
  induction l1 with
  | nil =>
    cases hl : scalar_scan v t l2 <;> simp [scalar_scan, hl, Option.or]
  | cons m rest ih =>
    simp only [List.cons_append, scalar_scan]
    by_cases hc : v < t * m.scale + m.offset
    · rw [if_pos hc, if_pos hc]
      rfl
    · rw [if_neg hc, if_neg hc]
      exact ih

lemma fit_lane_scan_eq (v t : ℚ) :
    ∀ (ms : List ColorMapElement) (k : ℕ) (S O : List ℚ),
      k + ms.length ≤ S.length →
      (∀ j, j < ms.length →
        S.getD (k + j) 0 = (ms.getD j defaultCME).scale ∧
        O.getD (k + j) 0 = (ms.getD j defaultCME).offset) →
      fit_lane_scan S O v t k ms.length =
        (scalarScanIdx v t ms).map (fun j => k + j) := by
  intro ms
  induction ms with
  | nil => intro k S O _ _; rfl
  | cons m rest ih =>
    intro k S O hlen hS
    have hk : k < S.length := by
      simp only [List.length_cons] at hlen
      omega
    have h0 := hS 0 (by simp)
    simp only [Nat.add_zero, List.getD_cons_zero] at h0
    show (if simdLaneLt S O v t k then some k else _) = _
    rw [show simdLaneLt S O v t k = decide (v < t * m.scale + m.offset) from by
      unfold simdLaneLt
      rw [h0.1, h0.2, decide_eq_true hk, Bool.true_and]]
    unfold scalarScanIdx
    by_cases hc : v < t * m.scale + m.offset
    · rw [decide_eq_true hc, if_pos hc]
      rfl
    · rw [decide_eq_false hc, if_neg hc]
      have hlen2 : (k + 1) + rest.length ≤ S.length := by
        simp only [List.length_cons] at hlen
        omega
      have hS2 : ∀ j, j < rest.length →
          S.getD ((k + 1) + j) 0 = (rest.getD j defaultCME).scale ∧
          O.getD ((k + 1) + j) 0 = (rest.getD j defaultCME).offset := by
        intro j hj
        have := hS (j + 1) (by simp only [List.length_cons]; omega)
        simpa [Nat.add_assoc, Nat.add_comm 1 j] using this
      rw [ih (k + 1) S O hlen2 hS2, Option.map_map]
      cases scalarScanIdx v t rest with
      | none => rfl
      | some j =>
        simp only [Option.map_some', Function.comp_apply]
        exact congrArg some (by omega)

/-! ### Arithmetic of the fit pass partition -/

lemma computeIters_eq (n L : ℕ) (hL : 0 < L) :
    SimdFit.computeIters n L = if n % L = 0 then n / L else n / L + 1 := by
  unfold SimdFit.computeIters
  have hq := Nat.div_add_mod n L
  have hr : n % L < L := Nat.mod_lt n hL
  by_cases h0 : n % L = 0
  · rw [if_pos h0]
    have hE : n + L - 1 = L * (n / L) + (L - 1) := by omega
    rw [hE, Nat.mul_add_div hL, Nat.div_eq_of_lt (show L - 1 < L by omega), Nat.add_zero]
  · rw [if_neg h0]
    have hE : n + L - 1 = L * (n / L + 1) + (n % L - 1) := by
      have h2 : L * (n / L + 1) = L * (n / L) + L := by ring
      omega
    rw [hE, Nat.mul_add_div hL,
      Nat.div_eq_of_lt (show n % L - 1 < L by omega), Nat.add_zero]

lemma mkPass_arith (n L iter rs : ℕ) (hL : 0 < L)
    (hiter : iter < SimdFit.computeIters n L)
    (hrs : rs = if iter = SimdFit.computeIters n L - 1 then
      (if n % L = 0 then L else n % L) else L) :
    iter * L + rs ≤ n ∧
    (iter + 1 = SimdFit.computeIters n L → iter * L + rs = n) ∧
    (iter + 1 < SimdFit.computeIters n L → rs = L) := by
  have hq := Nat.div_add_mod n L
  have hr : n % L < L := Nat.mod_lt n hL
  have hCIeq := computeIters_eq n L hL
  have hcomm : (n / L) * L = L * (n / L) := Nat.mul_comm _ _
  by_cases h0 : n % L = 0
  · rw [if_pos h0] at hCIeq
    have hqpos : 1 ≤ n / L := by omega
    by_cases hlast : iter + 1 = SimdFit.computeIters n L
    · have hit : iter = n / L - 1 := by omega
      have hrs2 : rs = L := by
        rw [hrs, if_pos (by omega), if_pos h0]
      have he : iter * L + L = (n / L) * L := by
        rw [hit]
        have h3 : (n / L - 1) + 1 = n / L := by omega
        calc (n / L - 1) * L + L = ((n / L - 1) + 1) * L := by ring
        _ = (n / L) * L := by rw [h3]
      refine ⟨by omega, fun _ => by omega, fun hcon => by omega⟩
    · have hne : iter ≠ SimdFit.computeIters n L - 1 := by omega
      have hrs2 : rs = L := by rw [hrs, if_neg hne]
      have hlt : iter + 1 ≤ n / L - 1 := by omega
      have he : (iter + 1) * L ≤ (n / L) * L :=
        Nat.mul_le_mul_right L (by omega)
      have he2 : (iter + 1) * L = iter * L + L := Nat.succ_mul iter L
      refine ⟨by omega, fun hcon => by omega, fun _ => hrs2⟩
  · rw [if_neg h0] at hCIeq
    by_cases hlast : iter + 1 = SimdFit.computeIters n L
    · have hit : iter = n / L := by omega
      have hrs2 : rs = n % L := by
        rw [hrs, if_pos (by omega), if_neg h0]
      rw [hit, hrs2]
      refine ⟨by omega, fun _ => by omega, fun hcon => by omega⟩
    · have hne : iter ≠ SimdFit.computeIters n L - 1 := by omega
      have hrs2 : rs = L := by rw [hrs, if_neg hne]
      have hlt : iter + 1 ≤ n / L := by omega
      have he : (iter + 1) * L ≤ (n / L) * L :=
        Nat.mul_le_mul_right L hlt
      have he2 : (iter + 1) * L = iter * L + L := Nat.succ_mul iter L
      refine ⟨by omega, fun hcon => by omega, fun _ => hrs2⟩

lemma computeIters_mul_ge (n L : ℕ) (hL : 0 < L) :
    n ≤ SimdFit.computeIters n L * L := by
  rcases Nat.eq_zero_or_pos (SimdFit.computeIters n L) with hz | hpos
  · have hCIeq := computeIters_eq n L hL
    have hq := Nat.div_add_mod n L
    have hr : n % L < L := Nat.mod_lt n hL
    rw [hz, Nat.zero_mul]
    by_cases h0 : n % L = 0
    · rw [if_pos h0] at hCIeq
      have hdiv : n / L = 0 := by omega
      have hml : L * (n / L) = 0 := by rw [hdiv, Nat.mul_zero]
      omega
    · rw [if_neg h0] at hCIeq
      have hcontra : n / L + 1 = 0 := by rw [← hCIeq, hz]
      exact absurd hcontra (Nat.succ_ne_zero _)
  · obtain ⟨hA, hB, _⟩ := mkPass_arith n L (SimdFit.computeIters n L - 1) _ hL
      (by omega) rfl
    have hn := hB (by omega)
    have hrsle : (if SimdFit.computeIters n L - 1 = SimdFit.computeIters n L - 1 then
        (if n % L = 0 then L else n % L) else L) ≤ L := by
      rw [if_pos rfl]
      have hr : n % L < L := Nat.mod_lt n hL
      by_cases h0 : n % L = 0
      · rw [if_pos h0]
      · rw [if_neg h0]; omega
    have he : (SimdFit.computeIters n L - 1) * L + L = SimdFit.computeIters n L * L := by
      have h3 : (SimdFit.computeIters n L - 1) + 1 = SimdFit.computeIters n L := by omega
      calc (SimdFit.computeIters n L - 1) * L + L
          = ((SimdFit.computeIters n L - 1) + 1) * L := by ring
      _ = SimdFit.computeIters n L * L := by rw [h3]
    omega

/-! ### Indexing helper lemmas -/

lemma getD_take_eq {α : Type} (l : List α) (m j : ℕ) (d : α) (h : j < m) :
    (l.take m).getD j d = l.getD j d := by
  rw [List.getD_eq_getElem?_getD, List.getElem?_take, if_pos h,
    ← List.getD_eq_getElem?_getD]

lemma getD_drop_eq {α : Type} (l : List α) (s j : ℕ) (d : α) :
    (l.drop s).getD j d = l.getD (s + j) d := by
  rw [List.getD_eq_getElem?_getD, List.getElem?_drop,
    ← List.getD_eq_getElem?_getD]

lemma getD_map_scale (l : List ColorMapElement) (j : ℕ) :
    (l.map (fun c => c.scale)).getD j 0 = (l.getD j defaultCME).scale :=
  @List.getD_map _ _ l defaultCME j (fun c => c.scale)

lemma getD_map_offset (l : List ColorMapElement) (j : ℕ) :
    (l.map (fun c => c.offset)).getD j 0 = (l.getD j defaultCME).offset :=
  @List.getD_map _ _ l defaultCME j (fun c => c.offset)

lemma passData_get (mp : List ColorMapElement) (L iter : ℕ)
    (h : iter < SimdFit.computeIters mp.length L) :
    exGet (SimdFit.passData mp L) iter =
      .ok (SimdFit.mkPass mp L (SimdFit.computeIters mp.length L) iter) := by
  unfold SimdFit.passData exGet
  rw [List.get?_eq_getElem?, List.getElem?_map]
  rw [List.getElem?_range h]
  rfl

lemma mkPass_size (mp : List ColorMapElement) (L CI iter : ℕ) :
    (SimdFit.mkPass mp L CI iter).size =
      if iter = CI - 1 then (if mp.length % L = 0 then L else mp.length % L)
      else L := rfl

lemma mkPass_scale (mp : List ColorMapElement) (L CI iter : ℕ) :
    (SimdFit.mkPass mp L CI iter).scale =
      ((mp.drop (iter * L)).take (SimdFit.mkPass mp L CI iter).size).map
        (fun c => c.scale) ++
        List.replicate (L - (SimdFit.mkPass mp L CI iter).size) 0 := rfl

lemma mkPass_offset (mp : List ColorMapElement) (L CI iter : ℕ) :
    (SimdFit.mkPass mp L CI iter).offset =
      ((mp.drop (iter * L)).take (SimdFit.mkPass mp L CI iter).size).map
        (fun c => c.offset) ++
        List.replicate (L - (SimdFit.mkPass mp L CI iter).size) 0 := rfl

lemma fit_loop_succ (mp : List ColorMapElement) (pd : List SimdFitPassData)
    (lanes : ℕ) (v t : ℚ) (iter rem : ℕ) :
    fit_loop mp pd lanes v t iter (rem + 1) =
      match exGet pd iter with
      | .panic k => .panic k
      | .ok pool =>
        match fit_lane_scan pool.scale pool.offset v t 0 pool.size with
        | some lane =>
          match exGet mp (iter * lanes + lane) with
          | .panic k => .panic k
          | .ok m => .ok (some m.color)
        | none => fit_loop mp pd lanes v t (iter + 1) rem := rfl

lemma fit_loop_eq (mp : List ColorMapElement) (L : ℕ) (hL : 0 < L) (v t : ℚ) :
    ∀ (remaining iter : ℕ),
      iter + remaining = SimdFit.computeIters mp.length L →
      fit_loop mp (SimdFit.passData mp L) L v t iter remaining =
        .ok (scalar_scan v t (mp.drop (iter * L))) := by
  intro remaining
  induction remaining with
  | zero =>
    intro iter hiter
    have hge : mp.length ≤ iter * L := by
      have h1 := computeIters_mul_ge mp.length L hL
      have h2 : iter = SimdFit.computeIters mp.length L := by omega
      rw [h2]
      exact h1
    rw [List.drop_eq_nil_of_le hge]
    rfl
  | succ rem ih =>
    intro iter hiter
    have hCI : iter < SimdFit.computeIters mp.length L := by omega
    have hstep : fit_loop mp (SimdFit.passData mp L) L v t iter (rem + 1) =
        match fit_lane_scan
          (SimdFit.mkPass mp L (SimdFit.computeIters mp.length L) iter).scale
          (SimdFit.mkPass mp L (SimdFit.computeIters mp.length L) iter).offset v t 0
          (SimdFit.mkPass mp L (SimdFit.computeIters mp.length L) iter).size with
        | some lane =>
          match exGet mp (iter * L + lane) with
          | .panic k => .panic k
          | .ok m => .ok (some m.color)
        | none => fit_loop mp (SimdFit.passData mp L) L v t (iter + 1) rem := by
      rw [fit_loop_succ, passData_get mp L iter hCI]
    rw [hstep]
    have hrs : (SimdFit.mkPass mp L (SimdFit.computeIters mp.length L) iter).size =
        if iter = SimdFit.computeIters mp.length L - 1 then
          (if mp.length % L = 0 then L else mp.length % L) else L :=
      mkPass_size _ _ _ _
    obtain ⟨hA, hB, hC⟩ := mkPass_arith mp.length L iter _ hL hCI hrs
    have hrsle : (SimdFit.mkPass mp L (SimdFit.computeIters mp.length L) iter).size ≤ L := by
      rw [hrs]
      have hmod : mp.length % L < L := Nat.mod_lt _ hL
      by_cases h1 : iter = SimdFit.computeIters mp.length L - 1
      · rw [if_pos h1]
        by_cases h2 : mp.length % L = 0
        · rw [if_pos h2]
        · rw [if_neg h2]; omega
      · rw [if_neg h1]
    have hchunklen :
        ((mp.drop (iter * L)).take
          (SimdFit.mkPass mp L (SimdFit.computeIters mp.length L) iter).size).length =
        (SimdFit.mkPass mp L (SimdFit.computeIters mp.length L) iter).size := by
      rw [List.length_take, List.length_drop]
      omega
    have hlen : 0 + ((mp.drop (iter * L)).take
        (SimdFit.mkPass mp L (SimdFit.computeIters mp.length L) iter).size).length ≤
        (SimdFit.mkPass mp L (SimdFit.computeIters mp.length L) iter).scale.length := by
      rw [mkPass_scale, List.length_append, List.length_map, List.length_replicate]
      omega
    have hS : ∀ j, j < ((mp.drop (iter * L)).take
        (SimdFit.mkPass mp L (SimdFit.computeIters mp.length L) iter).size).length →
        (SimdFit.mkPass mp L (SimdFit.computeIters mp.length L) iter).scale.getD (0 + j) 0 =
          (((mp.drop (iter * L)).take
            (SimdFit.mkPass mp L (SimdFit.computeIters mp.length L) iter).size).getD j
              defaultCME).scale ∧
        (SimdFit.mkPass mp L (SimdFit.computeIters mp.length L) iter).offset.getD (0 + j) 0 =
          (((mp.drop (iter * L)).take
            (SimdFit.mkPass mp L (SimdFit.computeIters mp.length L) iter).size).getD j
              defaultCME).offset := by
      intro j hj
      constructor
      · rw [mkPass_scale, Nat.zero_add,
          List.getD_append _ _ _ _ (by rw [List.length_map]; exact hj),
          getD_map_scale]
      · rw [mkPass_offset, Nat.zero_add,
          List.getD_append _ _ _ _ (by rw [List.length_map]; exact hj),
          getD_map_offset]
    have hscan := fit_lane_scan_eq v t
      ((mp.drop (iter * L)).take
        (SimdFit.mkPass mp L (SimdFit.computeIters mp.length L) iter).size) 0
      (SimdFit.mkPass mp L (SimdFit.computeIters mp.length L) iter).scale
      (SimdFit.mkPass mp L (SimdFit.computeIters mp.length L) iter).offset
      hlen hS
    rw [hchunklen] at hscan
    have hdec : mp.drop (iter * L) =
        ((mp.drop (iter * L)).take
          (SimdFit.mkPass mp L (SimdFit.computeIters mp.length L) iter).size) ++
        mp.drop (iter * L +
          (SimdFit.mkPass mp L (SimdFit.computeIters mp.length L) iter).size) := by
      rw [← List.drop_drop]
      rw [List.take_append_drop]
    cases hidx : scalarScanIdx v t
        ((mp.drop (iter * L)).take
          (SimdFit.mkPass mp L (SimdFit.computeIters mp.length L) iter).size) with
    | none =>
      rw [hidx] at hscan
      simp only [Option.map_none'] at hscan
      rw [hscan]
      have hnone : scalar_scan v t
          ((mp.drop (iter * L)).take
            (SimdFit.mkPass mp L (SimdFit.computeIters mp.length L) iter).size) = none := by
        rw [scalar_scan_eq_idx, hidx]
        rfl
      conv_rhs => rw [hdec, scalar_scan_append, hnone]
      rw [show (Option.or none (scalar_scan v t (mp.drop (iter * L +
        (SimdFit.mkPass mp L (SimdFit.computeIters mp.length L) iter).size)))) =
        scalar_scan v t (mp.drop (iter * L +
          (SimdFit.mkPass mp L (SimdFit.computeIters mp.length L) iter).size)) from
        Option.none_or]
      by_cases hls : iter + 1 = SimdFit.computeIters mp.length L
      · have hrem : rem = 0 := by omega
        subst hrem
        have hd1 : mp.drop (iter * L +
            (SimdFit.mkPass mp L (SimdFit.computeIters mp.length L) iter).size) = [] :=
          List.drop_eq_nil_of_le (by omega)
        have hd2 : mp.length ≤ (iter + 1) * L := by
          have h1 := computeIters_mul_ge mp.length L hL
          rw [hls]
          exact h1
        show fit_loop mp (SimdFit.passData mp L) L v t (iter + 1) 0 = _
        rw [ih (iter + 1) (by omega), List.drop_eq_nil_of_le hd2, hd1]
      · have hrsL := hC (by omega)
        rw [hrsL]
        rw [show iter * L + L = (iter + 1) * L from (Nat.succ_mul iter L).symm]
        exact ih (iter + 1) (by omega)
    | some j =>
      rw [hidx] at hscan
      have hjlt : j < ((mp.drop (iter * L)).take
          (SimdFit.mkPass mp L (SimdFit.computeIters mp.length L) iter).size).length :=
        scalarScanIdx_lt v t _ j hidx
      rw [hchunklen] at hjlt
      rw [hscan]
      simp only [Option.map_some', Nat.zero_add]
      have hmem : iter * L + j < mp.length := by omega
      rw [exGet_eq_ok mp (iter * L + j) defaultCME hmem]
      have hchunkj : (((mp.drop (iter * L)).take
          (SimdFit.mkPass mp L (SimdFit.computeIters mp.length L) iter).size).getD j
            defaultCME) = mp.getD (iter * L + j) defaultCME := by
        rw [getD_take_eq _ _ _ _ hjlt, getD_drop_eq]
      conv_rhs => rw [hdec, scalar_scan_append]
      rw [scalar_scan_eq_idx v t ((mp.drop (iter * L)).take
        (SimdFit.mkPass mp L (SimdFit.computeIters mp.length L) iter).size), hidx]
      simp only [Option.map_some']
      rw [hchunkj]
      rfl

/-! ### Kernel equivalence: the three strategies agree pixel for pixel -/

lemma exGet_cases {α : Type} (l : List α) (i : ℕ) :
    exGet l i = .panic .indexOOB ∨ ∃ a, exGet l i = .ok a := by
  unfold exGet
  cases l.get? i with
  | none => left; rfl
  | some a => right; exact ⟨a, rfl⟩

lemma fixed_row_eq_scalar_row (in_buf tiled : List ℚ) (cfg : BayerConfig)
    (fb : RGB) (width y rowLen : ℕ) :
    fixed_row in_buf tiled cfg fb (cfg.map.map (fun c => c.scale))
      (cfg.map.map (fun c => c.offset)) width y rowLen =
    scalar_row in_buf tiled cfg fb width y rowLen := by
  unfold fixed_row scalar_row
  by_cases hsl : ((y &&& cfg.side_mask) <<< cfg.order) + width ≤ tiled.length
  · rw [if_pos hsl, if_pos hsl]
    apply kmapM_congr
    intro x _
    rcases exGet_cases ((tiled.drop ((y &&& cfg.side_mask) <<< cfg.order)).take width) x
      with hb | ⟨t, hb⟩ <;>
      rcases exGet_cases in_buf (y * width + x) with hv | ⟨v, hv⟩ <;>
      rw [hb, hv] <;> simp only []
    rw [fixed_scan_eq_scalar_scan]
  · rw [if_neg hsl, if_neg hsl]

lemma fit_row_eq_scalar_row (in_buf tiled : List ℚ) (cfg : BayerConfig)
    (fb : RGB) (L : ℕ) (hL : 0 < L) (width y rowLen : ℕ) :
    fit_row in_buf tiled cfg fb (SimdFit.passData cfg.map L) L
      (SimdFit.computeIters cfg.map.length L) width y rowLen =
    scalar_row in_buf tiled cfg fb width y rowLen := by
  unfold fit_row scalar_row
  by_cases hsl : ((y &&& cfg.side_mask) <<< cfg.order) + width ≤ tiled.length
  · rw [if_pos hsl, if_pos hsl]
    apply kmapM_congr
    intro x _
    rcases exGet_cases ((tiled.drop ((y &&& cfg.side_mask) <<< cfg.order)).take width) x
      with hb | ⟨t, hb⟩ <;>
      rcases exGet_cases in_buf (y * width + x) with hv | ⟨v, hv⟩ <;>
      rw [hb, hv] <;> simp only []
    have hloop := fit_loop_eq cfg.map L hL v t
      (SimdFit.computeIters cfg.map.length L) 0 (Nat.zero_add _)
    rw [Nat.zero_mul, List.drop_zero] at hloop
    rw [hloop]
    cases hscan : scalar_scan v t cfg.map with
    | none => simp only [Option.getD_none]
    | some c => simp only [Option.getD_some]
  · rw [if_neg hsl, if_neg hsl]

lemma fixed_par_eq_scalar_par (in_buf : List ℚ) (shape : ℕ × ℕ) (out_len : ℕ)
    (tiled : List ℚ) (cfg : BayerConfig) :
    fixed_par in_buf shape out_len tiled cfg (cfg.map.map (fun c => c.scale))
      (cfg.map.map (fun c => c.offset)) =
    scalar_par in_buf shape out_len tiled cfg := by
  unfold fixed_par scalar_par
  cases hlast : cfg.map.getLast? with
  | none => rfl
  | some lastEl =>
    simp only []
    by_cases hw : shape.1 = 0
    · rw [if_pos hw, if_pos hw]
    · rw [if_neg hw, if_neg hw]
      rw [kmapM_congr (List.range (numChunks shape.1 out_len))
        (fun y _ => fixed_row_eq_scalar_row in_buf tiled cfg lastEl.color shape.1 y
          (min shape.1 (out_len - y * shape.1)))]

lemma fit_par_eq_scalar_par (in_buf : List ℚ) (shape : ℕ × ℕ) (out_len : ℕ)
    (tiled : List ℚ) (cfg : BayerConfig) (L : ℕ) (hL : 0 < L) :
    fit_par in_buf shape out_len tiled cfg (SimdFit.passData cfg.map L) L
      (SimdFit.computeIters cfg.map.length L) =
    scalar_par in_buf shape out_len tiled cfg := by
  unfold fit_par scalar_par
  cases hlast : cfg.map.getLast? with
  | none => rfl
  | some lastEl =>
    simp only []
    by_cases hw : shape.1 = 0
    · rw [if_pos hw, if_pos hw]
    · rw [if_neg hw, if_neg hw]
      rw [kmapM_congr (List.range (numChunks shape.1 out_len))
        (fun y _ => fit_row_eq_scalar_row in_buf tiled cfg lastEl.color L hL shape.1 y
          (min shape.1 (out_len - y * shape.1)))]

/-! ### Construction inversions -/

lemma BayerConfig_new_inv (order : ℕ) (matrix : List ℚ) (mp : List ColorMapElement)
    (cfg : BayerConfig) (h : BayerConfig.new order matrix mp = some cfg) :
    cfg.matrix = matrix ∧ cfg.map = mp ∧ cfg.order = order ∧
    cfg.side_mask = 1 <<< order - 1 ∧
    (1 <<< order) * (1 <<< order) = cfg.matrix.length := by
  unfold BayerConfig.new at h
  by_cases hc : (1 <<< order) * (1 <<< order) = matrix.length
  · rw [if_pos hc] at h
    cases h
    exact ⟨rfl, rfl, rfl, rfl, hc⟩
  · rw [if_neg hc] at h
    exact Option.noConfusion h

lemma SimdFixed_new_inv (L : ℕ) (cfg : BayerConfig) (sd : SimdFixedData)
    (h : SimdFixed.new L cfg = some sd) :
    cfg.map.length = L ∧ sd.scale = cfg.map.map (fun c => c.scale) ∧
    sd.offset = cfg.map.map (fun c => c.offset) := by
  unfold SimdFixed.new at h
  by_cases hc : cfg.map.length = L
  · rw [if_pos hc] at h
    cases h
    exact ⟨hc, rfl, rfl⟩
  · rw [if_neg hc] at h
    exact Option.noConfusion h

/-! ### Index bounds: bayer_idx and the tiled-cache slice -/

lemma bayer_idx_lt (cfg : BayerConfig)
    (hmask : cfg.side_mask = 1 <<< cfg.order - 1)
    (hlen : (1 <<< cfg.order) * (1 <<< cfg.order) = cfg.matrix.length)
    (x y : ℕ) : cfg.bayer_idx x y < cfg.matrix.length := by
  unfold BayerConfig.bayer_idx
  have hside : 1 ≤ 1 <<< cfg.order := by
    rw [Nat.shiftLeft_eq, Nat.one_mul]
    exact Nat.one_le_two_pow
  have hy : y &&& cfg.side_mask ≤ 1 <<< cfg.order - 1 := by
    rw [hmask]
    exact Nat.and_le_right
  have hx : x &&& cfg.side_mask ≤ 1 <<< cfg.order - 1 := by
    rw [hmask]
    exact Nat.and_le_right
  have hshift : (y &&& cfg.side_mask) <<< cfg.order =
      (y &&& cfg.side_mask) * (1 <<< cfg.order) := by
    rw [Nat.shiftLeft_eq, Nat.shiftLeft_eq, Nat.one_mul]
  have hmul : (y &&& cfg.side_mask) * (1 <<< cfg.order) ≤
      (1 <<< cfg.order - 1) * (1 <<< cfg.order) :=
    Nat.mul_le_mul_right _ hy
  have hsq : (1 <<< cfg.order - 1) * (1 <<< cfg.order) + (1 <<< cfg.order) =
      (1 <<< cfg.order) * (1 <<< cfg.order) := by
    have h3 : (1 <<< cfg.order - 1) + 1 = 1 <<< cfg.order := by omega
    calc (1 <<< cfg.order - 1) * (1 <<< cfg.order) + (1 <<< cfg.order)
        = ((1 <<< cfg.order - 1) + 1) * (1 <<< cfg.order) := by ring
    _ = (1 <<< cfg.order) * (1 <<< cfg.order) := by rw [h3]
  omega

lemma bayer_slice_le (cfg : BayerConfig)
    (hmask : cfg.side_mask = 1 <<< cfg.order - 1)
    (width : ℕ) (hw : 1 <<< cfg.order ≤ width) (y : ℕ) :
    ((y &&& cfg.side_mask) <<< cfg.order) + width ≤
      (cfg.cache_tiled_pattern width).length := by
  rw [length_cache_tiled_pattern]
  have hside : 1 ≤ 1 <<< cfg.order := by
    rw [Nat.shiftLeft_eq, Nat.one_mul]
    exact Nat.one_le_two_pow
  have hy : y &&& cfg.side_mask ≤ 1 <<< cfg.order - 1 := by
    rw [hmask]
    exact Nat.and_le_right
  have hshift : (y &&& cfg.side_mask) <<< cfg.order =
      (y &&& cfg.side_mask) * (1 <<< cfg.order) := by
    rw [Nat.shiftLeft_eq, Nat.shiftLeft_eq, Nat.one_mul]
  have hmul : (y &&& cfg.side_mask) * (1 <<< cfg.order) ≤
      (1 <<< cfg.order - 1) * (1 <<< cfg.order) :=
    Nat.mul_le_mul_right _ hy
  have hmul2 : (1 <<< cfg.order - 1) * (1 <<< cfg.order) ≤
      (1 <<< cfg.order - 1) * width :=
    Nat.mul_le_mul_left _ hw
  have hsq : (1 <<< cfg.order - 1) * width + width =
      (1 <<< cfg.order) * width := by
    have h3 : (1 <<< cfg.order - 1) + 1 = 1 <<< cfg.order := by omega
    calc (1 <<< cfg.order - 1) * width + width
        = ((1 <<< cfg.order - 1) + 1) * width := by ring
    _ = (1 <<< cfg.order) * width := by rw [h3]
  omega

/-! ### The scalar kernel runs to completion under the shape preconditions -/

lemma scalar_row_ok (in_buf tiled : List ℚ) (cfg : BayerConfig) (fb : RGB)
    (width y rowLen : ℕ)
    (hsl : ((y &&& cfg.side_mask) <<< cfg.order) + width ≤ tiled.length)
    (hrow : rowLen ≤ width)
    (hin : ∀ x, x < rowLen → y * width + x < in_buf.length) :
    scalar_row in_buf tiled cfg fb width y rowLen =
      .ok ((List.range rowLen).map (fun x =>
        (scalar_scan (in_buf.getD (y * width + x) 0)
          (tiled.getD (((y &&& cfg.side_mask) <<< cfg.order) + x) 0)
          cfg.map).getD fb)) := by
  unfold scalar_row
  rw [if_pos hsl]
  apply kmapM_ok
  intro x hx
  have hxlt : x < rowLen := List.mem_range.1 hx
  have hblen : x <
      ((tiled.drop ((y &&& cfg.side_mask) <<< cfg.order)).take width).length := by
    rw [List.length_take, List.length_drop]
    omega
  rw [exGet_eq_ok _ x (0 : ℚ) hblen,
    exGet_eq_ok in_buf (y * width + x) (0 : ℚ) (hin x hxlt)]
  rw [getD_take_eq _ _ _ _ (by omega), getD_drop_eq]

lemma numChunks_mul (w h : ℕ) (hw : 0 < w) : numChunks w (w * h) = h := by
  unfold numChunks
  have hE : w * h + w - 1 = w * h + (w - 1) := by omega
  rw [hE, Nat.mul_add_div hw, Nat.div_eq_of_lt (show w - 1 < w by omega),
    Nat.add_zero]

lemma scalar_par_ok (in_buf tiled : List ℚ) (cfg : BayerConfig)
    (lastEl : ColorMapElement) (w h : ℕ)
    (hlast : cfg.map.getLast? = some lastEl)
    (hw : 0 < w)
    (hsl : ∀ y, ((y &&& cfg.side_mask) <<< cfg.order) + w ≤ tiled.length)
    (hin : w * h ≤ in_buf.length) :
    scalar_par in_buf (w, h) (w * h) tiled cfg =
      .ok (((List.range h).map (fun y =>
        (List.range (min w (w * h - y * w))).map (fun x =>
          (scalar_scan (in_buf.getD (y * w + x) 0)
            (tiled.getD (((y &&& cfg.side_mask) <<< cfg.order) + x) 0)
            cfg.map).getD lastEl.color))).flatten) := by
  unfold scalar_par
  rw [hlast]
  simp only []
  rw [if_neg (show ¬ ((w, h) : ℕ × ℕ).1 = 0 from by
    rw [show ((w, h) : ℕ × ℕ).1 = w from rfl]
    omega)]
  rw [numChunks_mul w h hw]
  rw [kmapM_ok (List.range h) (fun y hy => by
    have hylt : y < h := List.mem_range.1 hy
    apply scalar_row_ok
    · exact hsl y
    · exact Nat.min_le_left _ _
    · intro x hxlt
      have hx2 : x < w * h - y * w := lt_of_lt_of_le hxlt (Nat.min_le_right _ _)
      have hyw : y * w ≤ h * w := Nat.mul_le_mul_right w (by omega)
      have hcomm : h * w = w * h := Nat.mul_comm h w
      omega)]

/-! ### Characterization of closest_pow_2 and lanes_fit -/

lemma sizeAux_zero (fuel : ℕ) : sizeAux fuel 0 = 0 := by
  cases fuel <;> rfl

lemma sizeAux_le (fuel : ℕ) : ∀ n, sizeAux fuel n ≤ fuel := by
  induction fuel with
  | zero => intro n; exact Nat.le_refl 0
  | succ f ih =>
    intro n
    unfold sizeAux
    by_cases hn : n = 0
    · rw [if_pos hn]; omega
    · rw [if_neg hn]
      have := ih (n / 2)
      omega

lemma sizeAux_spec (fuel : ℕ) : ∀ n, 0 < n → n < 2 ^ fuel →
    2 ^ (sizeAux fuel n - 1) ≤ n ∧ n < 2 ^ sizeAux fuel n ∧ 1 ≤ sizeAux fuel n := by
  induction fuel with
  | zero =>
    intro n h1 h2
    simp only [pow_zero] at h2
    omega
  | succ f ih =>
    intro n h1 h2
    have hn : ¬ n = 0 := by omega
    show 2 ^ (sizeAux (f + 1) n - 1) ≤ n ∧ n < 2 ^ sizeAux (f + 1) n ∧
      1 ≤ sizeAux (f + 1) n
    rw [show sizeAux (f + 1) n = sizeAux f (n / 2) + 1 from by
      conv_lhs => rw [sizeAux]
      rw [if_neg hn]]
    by_cases hsmall : n / 2 = 0
    · have hone : n = 1 := by omega
      rw [hsmall, sizeAux_zero]
      subst hone
      refine ⟨by norm_num, by norm_num, by norm_num⟩
    · have hpow : 2 ^ (f + 1) = 2 * 2 ^ f := by rw [pow_succ]; ring
      have hhalf : n / 2 < 2 ^ f := by omega
      obtain ⟨ha, hb, hc⟩ := ih (n / 2) (by omega) hhalf
      have hs1 : sizeAux f (n / 2) - 1 + 1 = sizeAux f (n / 2) := by omega
      have hp1 : 2 ^ sizeAux f (n / 2) = 2 * 2 ^ (sizeAux f (n / 2) - 1) := by
        calc 2 ^ sizeAux f (n / 2) = 2 ^ (sizeAux f (n / 2) - 1 + 1) := by rw [hs1]
        _ = 2 * 2 ^ (sizeAux f (n / 2) - 1) := by rw [pow_succ]; ring
      have hp2 : 2 ^ (sizeAux f (n / 2) + 1) = 2 * 2 ^ sizeAux f (n / 2) := by
        rw [pow_succ]; ring
      refine ⟨?_, ?_, by omega⟩
      · rw [show sizeAux f (n / 2) + 1 - 1 = sizeAux f (n / 2) from by omega, hp1]
        omega
      · rw [hp2]
        omega

lemma halveWhileGt_le (fuel c bound : ℕ) (h : c ≤ bound) :
    halveWhileGt fuel c bound = c := by
  cases fuel with
  | zero => rfl
  | succ f =>
    unfold halveWhileGt
    rw [if_neg (by omega)]

lemma halveWhileGt_succ (fuel c bound : ℕ) :
    halveWhileGt (fuel + 1) c bound =
      if bound < c then halveWhileGt fuel (c >>> 1) bound else c := rfl

lemma closest_pow_2_bounds (n : ℕ) (h1 : 0 < n) (h2 : n < 2 ^ 64) :
    closest_pow_2 n = 2 ^ (sizeAux 64 n - 1) ∨
    closest_pow_2 n = 2 ^ sizeAux 64 n := by
  obtain ⟨hle, hlt, hs1⟩ := sizeAux_spec 64 n h1 h2
  have hsle : sizeAux 64 n ≤ 64 := sizeAux_le 64 n
  simp only [closest_pow_2, leadingZeros, usizeBits]
  rw [if_neg (show ¬ n = 0 from by omega)]
  rw [show 64 - 1 - (64 - sizeAux 64 n) = sizeAux 64 n - 1 from by omega]
  rw [show (1 <<< (sizeAux 64 n - 1)) = 2 ^ (sizeAux 64 n - 1) from by
    rw [Nat.shiftLeft_eq, Nat.one_mul]]
  by_cases hz : 64 - sizeAux 64 n = 0
  · rw [if_pos hz]
    left
    rfl
  · rw [if_neg hz]
    have hup : (2 ^ (sizeAux 64 n - 1)) <<< 1 = 2 ^ sizeAux 64 n := by
      rw [Nat.shiftLeft_eq, pow_one]
      calc 2 ^ (sizeAux 64 n - 1) * 2 = 2 ^ (sizeAux 64 n - 1 + 1) := by
            rw [pow_succ]
      _ = 2 ^ sizeAux 64 n := by rw [show sizeAux 64 n - 1 + 1 = sizeAux 64 n from by omega]
    rw [hup]
    by_cases htie : n - 2 ^ (sizeAux 64 n - 1) ≤ 2 ^ sizeAux 64 n - n
    · rw [if_pos htie]
      left
      rfl
    · rw [if_neg htie]
      right
      rfl

lemma lanes_fit_eq_pow (n : ℕ) (h1 : 0 < n) (h2 : n < 2 ^ 64) :
    BayerStrategy.lanes_fit n = 2 ^ (sizeAux 64 n - 1) := by
  obtain ⟨hle, hlt, hs1⟩ := sizeAux_spec 64 n h1 h2
  unfold BayerStrategy.lanes_fit usizeBits
  rcases closest_pow_2_bounds n h1 h2 with hc | hc
  · rw [hc]
    exact halveWhileGt_le _ _ _ hle
  · rw [hc]
    show halveWhileGt (63 + 1) (2 ^ sizeAux 64 n) n = _
    rw [halveWhileGt_succ, if_pos hlt]
    have hshr : (2 ^ sizeAux 64 n) >>> 1 = 2 ^ (sizeAux 64 n - 1) := by
      rw [Nat.shiftRight_succ, Nat.shiftRight_zero]
      have : 2 ^ sizeAux 64 n = 2 ^ (sizeAux 64 n - 1) * 2 := by
        calc 2 ^ sizeAux 64 n = 2 ^ (sizeAux 64 n - 1 + 1) := by
              rw [show sizeAux 64 n - 1 + 1 = sizeAux 64 n from by omega]
        _ = 2 ^ (sizeAux 64 n - 1) * 2 := by rw [pow_succ]
      rw [this, Nat.mul_div_cancel _ (by omega)]
    rw [hshr]
    exact halveWhileGt_le _ _ _ hle

/-! ### Per-pixel evaluations for the black/white scenario -/

lemma pixBW_one : (scalar_scan (2/5) (1 - 0) mapBW).getD whiteRGB = blackRGB := by
  norm_num [scalar_scan, mapBW]

lemma pixBW_half : (scalar_scan (2/5) (1 - 1/2) mapBW).getD whiteRGB = blackRGB := by
  norm_num [scalar_scan, mapBW]

lemma pixBW_3q : (scalar_scan (2/5) (1 - 3/4) mapBW).getD whiteRGB = whiteRGB := by
  norm_num [scalar_scan, mapBW]

lemma pixBW_1q : (scalar_scan (2/5) (1 - 1/4) mapBW).getD whiteRGB = blackRGB := by
  norm_num [scalar_scan, mapBW]

/-! ### No out-of-bounds panic at the kernel level -/

lemma scalar_par_no_oob (in_buf tiled : List ℚ) (cfg : BayerConfig) (w h : ℕ)
    (hw0 : 0 < w)
    (hsl : ∀ y, ((y &&& cfg.side_mask) <<< cfg.order) + w ≤ tiled.length)
    (hin : w * h ≤ in_buf.length) :
    scalar_par in_buf (w, h) (w * h) tiled cfg ≠ .panic .indexOOB := by
  cases hlast : cfg.map.getLast? with
  | none =>
    unfold scalar_par
    rw [hlast]
    simp
  | some lastEl =>
    rw [scalar_par_ok in_buf tiled cfg lastEl w h hlast hw0 hsl hin]
    simp

/-! ### Claim theorems -/

/-- C7: the literal test vectors of lanes_fit and closest_pow_2 hold:
lanes_fit(3)=2, lanes_fit(5)=4, lanes_fit(7)=4, lanes_fit(12)=8,
lanes_fit(24)=16, closest_pow_2(0)=1, closest_pow_2(6)=4 (tie resolved to
the lower power), closest_pow_2(12)=8, closest_pow_2(24)=16. -/
theorem C7_literal_vectors :
    BayerStrategy.lanes_fit 3 = 2 ∧ BayerStrategy.lanes_fit 5 = 4 ∧
    BayerStrategy.lanes_fit 7 = 4 ∧ BayerStrategy.lanes_fit 12 = 8 ∧
    BayerStrategy.lanes_fit 24 = 16 ∧
    closest_pow_2 0 = 1 ∧ closest_pow_2 6 = 4 ∧ closest_pow_2 12 = 8 ∧
    closest_pow_2 24 = 16 := by
  decide

/-- C4: BayerStrategy::auto follows the spec's decision table: with palette
length n and detected hardware width w, it returns Scalar when n < 2,
SimdFixed(w) when n = w, and otherwise Scalar when lanes_fit(n) falls
outside [2,16] and the SimdFit-backed Simd(lanes_fit(n)) variant otherwise. -/
theorem C4_auto_decision_table :
    ∀ (config : BayerConfig) (w : ℕ),
      BayerStrategy.auto config w = autoSpecTable config.map.length w := by
  intro config w
  rfl

/-- C8: Pipeline::apply writes the output by first applying t1 to the input
into the owned intermediate buffer and then applying t2 to that intermediate
buffer, and Pipeline::prepare forwards (in_shape, b_shape) to t1 and
(b_shape, out_shape) to t2 where b_shape is the intermediate's shape. -/
theorem C8_pipeline_composition :
    ∀ (σ₁ σ₂ α β γ : Type) (T1 : TextureTransform σ₁ α β)
      (T2 : TextureTransform σ₂ β γ) (p : Pipeline σ₁ σ₂ β) (input : List α)
      (output : List γ) (in_shape out_shape : ℕ × ℕ × ℕ),
      (Pipeline.apply T1 T2 p input output).2 =
        (T2.apply p.t2 (T1.apply p.t1 input p.b.buf).2 output).2 ∧
      (Pipeline.apply T1 T2 p input output).1.b.buf =
        (T1.apply p.t1 input p.b.buf).2 ∧
      Pipeline.prepare T1 T2 p in_shape out_shape =
        { t1 := T1.prepare p.t1 in_shape p.b.shape
          t2 := T2.prepare p.t2 p.b.shape out_shape
          b := p.b } := by
  intro σ₁ σ₂ α β γ T1 T2 p input output in_shape out_shape
  exact ⟨rfl, rfl, rfl⟩

/-- C5 (counterexample): the claim that the lane count computed inside auto
never exceeds the hardware width w is false: with a 24-entry palette and
hardware width 4, auto selects Simd 16, and 16 > 4. The halving loop of
lanes_fit compares against its own argument (the palette size), not w. -/
theorem C5_counterexample_hardware_width :
    BayerConfig.new 0 [0] (List.replicate 24 defaultCME) = some cfg24 ∧
    BayerStrategy.auto cfg24 4 = .Simd 16 ∧ ¬ (16 ≤ 4) := by
  refine ⟨rfl, by decide, by omega⟩

/-- C5 (amended): for every palette length n with 1 ≤ n < 2^64, lanes_fit(n)
halves the candidate closest_pow_2(n) while it is greater than n itself
(the palette size, not the hardware width), so the result is the largest
power of two that is at most n: it never exceeds the palette length, though
it may exceed the hardware vector width. -/
theorem C5_lanes_fit_le_palette :
    ∀ n : ℕ, 1 ≤ n → n < 2 ^ 64 →
      BayerStrategy.lanes_fit n ≤ n ∧
      ∃ k, BayerStrategy.lanes_fit n = 2 ^ k ∧ 2 ^ k ≤ n ∧ n < 2 ^ (k + 1) := by
  intro n h1 h2
  obtain ⟨hle, hlt, hs1⟩ := sizeAux_spec 64 n (by omega) h2
  have heq := lanes_fit_eq_pow n (by omega) h2
  refine ⟨by omega, ⟨sizeAux 64 n - 1, heq, hle, ?_⟩⟩
  rw [show sizeAux 64 n - 1 + 1 = sizeAux 64 n from by omega]
  exact hlt

/-- Witness for C5's amended theorem at n = 24. -/
theorem C5_lanes_fit_le_palette_witness :
    BayerStrategy.lanes_fit 24 ≤ 24 :=
  (C5_lanes_fit_le_palette 24 (by omega) (by norm_num)).1

/-- C6: construction aborts on contract violations: BayerConfig::new panics
exactly when the matrix length differs from (2^order)^2, SimdFixed::new
panics exactly when the palette length is not the lane count, and
BayerStrategy::build panics on any Simd or SimdFixed lane count outside
{2,4,8,16}; none of these is deferred to apply time (the constructors
return no value at all on violation). -/
theorem C6_construction_contracts :
    (∀ (order : ℕ) (matrix : List ℚ) (mp : List ColorMapElement),
      BayerConfig.new order matrix mp = none ↔
        matrix.length ≠ (2 ^ order) ^ 2) ∧
    (∀ (L : ℕ) (config : BayerConfig),
      SimdFixed.new L config = none ↔ config.map.length ≠ L) ∧
    (∀ (config : BayerConfig) (lanes : ℕ),
      ¬ (lanes = 2 ∨ lanes = 4 ∨ lanes = 8 ∨ lanes = 16) →
      BayerStrategy.build (.Simd lanes) config = none ∧
      BayerStrategy.build (.SimdFixed lanes) config = none) := by
  refine ⟨?_, ?_, ?_⟩
  · intro order matrix mp
    have hID : (1 <<< order) * (1 <<< order) = (2 ^ order) ^ 2 := by
      rw [Nat.shiftLeft_eq, Nat.one_mul]
      ring
    unfold BayerConfig.new
    by_cases hc : (1 <<< order) * (1 <<< order) = matrix.length
    · rw [if_pos hc]
      constructor
      · intro h
        exact Option.noConfusion h
      · intro hne
        exact absurd (hID ▸ hc).symm hne
    · rw [if_neg hc]
      constructor
      · intro _
        intro hcon
        exact hc (by rw [hID, hcon])
      · intro _
        rfl
  · intro L config
    unfold SimdFixed.new
    by_cases hc : config.map.length = L
    · rw [if_pos hc]
      constructor
      · intro h
        exact Option.noConfusion h
      · intro hne
        exact absurd hc hne
    · rw [if_neg hc]
      exact ⟨fun _ => hc, fun _ => rfl⟩
  · intro config lanes h
    constructor
    · show (if lanes = 2 ∨ lanes = 4 ∨ lanes = 8 ∨ lanes = 16 then _ else none) = none
      rw [if_neg h]
    · show (if lanes = 2 ∨ lanes = 4 ∨ lanes = 8 ∨ lanes = 16 then _ else none) = none
      rw [if_neg h]

/-- Witness for C6 at concrete violations: a 1-entry matrix with order 1, a
lane count of 3 against the two-color config, and lane count 5 builds. -/
theorem C6_construction_contracts_witness :
    BayerConfig.new 1 [0] mapBW = none ∧
    SimdFixed.new 3 cfgC3 = none ∧
    BayerStrategy.build (.Simd 5) cfgC3 = none ∧
    BayerStrategy.build (.SimdFixed 5) cfgC3 = none := by
  refine ⟨?_, ?_, ?_, ?_⟩
  · exact (C6_construction_contracts.1 1 [0] mapBW).mpr (by decide)
  · exact (C6_construction_contracts.2.1 3 cfgC3).mpr (by decide)
  · exact (C6_construction_contracts.2.2 cfgC3 5 (by decide)).1
  · exact (C6_construction_contracts.2.2 cfgC3 5 (by decide)).2

/-- C10: with an empty palette, BayerStrategy::auto does select Scalar, but
the apply of every kernel panics on the unwrap of map.last() before the
pixel loop, for every input including the empty image; a zero-length
palette is never usable even through the scalar fallback path. -/
theorem C10_empty_palette_unusable :
    ∀ config : BayerConfig, config.map = [] →
      (∀ w, BayerStrategy.auto config w = .Scalar) ∧
      (∀ (in_buf : List ℚ) (in_shape : ℕ × ℕ) (out_len : ℕ) (tiled : List ℚ),
        scalar_par in_buf in_shape out_len tiled config = .panic .unwrapNone) ∧
      (∀ (in_buf : List ℚ) (in_shape : ℕ × ℕ) (out_len : ℕ) (tiled : List ℚ)
        (scale offset : List ℚ),
        fixed_par in_buf in_shape out_len tiled config scale offset =
          .panic .unwrapNone) ∧
      (∀ (in_buf : List ℚ) (in_shape : ℕ × ℕ) (out_len : ℕ) (tiled : List ℚ)
        (pd : List SimdFitPassData) (lanes ci : ℕ),
        fit_par in_buf in_shape out_len tiled config pd lanes ci =
          .panic .unwrapNone) := by
  intro config hmap
  have hlast : config.map.getLast? = none := by
    rw [hmap]
    rfl
  refine ⟨?_, ?_, ?_, ?_⟩
  · intro w
    simp [BayerStrategy.auto, hmap]
  · intro in_buf in_shape out_len tiled
    unfold scalar_par
    rw [hlast]
  · intro in_buf in_shape out_len tiled scale offset
    unfold fixed_par
    rw [hlast]
  · intro in_buf in_shape out_len tiled pd lanes ci
    unfold fit_par
    rw [hlast]

/-- Witness for C10 at the empty-palette config, including the empty image. -/
theorem C10_empty_palette_unusable_witness :
    BayerStrategy.auto cfgEmptyMap 8 = .Scalar ∧
    scalar_par [] (0, 0) 0 [] cfgEmptyMap = .panic .unwrapNone := by
  refine ⟨(C10_empty_palette_unusable cfgEmptyMap rfl).1 8,
    (C10_empty_palette_unusable cfgEmptyMap rfl).2.1 [] (0, 0) 0 []⟩

/-- C2: for every config and input, after prepare with the input's width,
the SimdFixed strategy (when its constructor accepts the palette, i.e.
palette length = lanes) and the SimdFit strategy (for each supported lane
count 2, 4, 8, 16) produce output identical to the Scalar strategy,
panics included. -/
theorem C2_strategy_equivalence :
    ∀ (config : BayerConfig) (in_buf : List ℚ) (width height out_len L : ℕ)
      (sd : SimdFixedData),
      (SimdFixed.new L config = some sd →
        SimdFixedStrategy.run config sd in_buf width height out_len =
          ScalarStrategy.run config in_buf width height out_len) ∧
      ((L = 2 ∨ L = 4 ∨ L = 8 ∨ L = 16) →
        SimdFitStrategy.run L config in_buf width height out_len =
          ScalarStrategy.run config in_buf width height out_len) := by
  intro config in_buf width height out_len L sd
  constructor
  · intro hnew
    obtain ⟨hlen, hsc, hof⟩ := SimdFixed_new_inv L config sd hnew
    unfold SimdFixedStrategy.run ScalarStrategy.run
    rw [hsc, hof]
    exact fixed_par_eq_scalar_par in_buf (width, height) out_len
      (config.cache_tiled_pattern width) config
  · intro hL
    have h0 : 0 < L := by rcases hL with h | h | h | h <;> omega
    unfold SimdFitStrategy.run ScalarStrategy.run
    exact fit_par_eq_scalar_par in_buf (width, height) out_len
      (config.cache_tiled_pattern width) config L h0

/-- Witness for C2 on the black/white scenario with lanes = 2. -/
theorem C2_strategy_equivalence_witness :
    SimdFixed.new 2 cfgC3 = some ⟨[1, 1], [0, 0]⟩ ∧
    SimdFixedStrategy.run cfgC3 ⟨[1, 1], [0, 0]⟩ (List.replicate 16 (2/5)) 4 4 16 =
      ScalarStrategy.run cfgC3 (List.replicate 16 (2/5)) 4 4 16 ∧
    SimdFitStrategy.run 2 cfgC3 (List.replicate 16 (2/5)) 4 4 16 =
      ScalarStrategy.run cfgC3 (List.replicate 16 (2/5)) 4 4 16 := by
  refine ⟨rfl, ?_, ?_⟩
  · exact (C2_strategy_equivalence cfgC3 (List.replicate 16 (2/5)) 4 4 16 2
      ⟨[1, 1], [0, 0]⟩).1 rfl
  · exact (C2_strategy_equivalence cfgC3 (List.replicate 16 (2/5)) 4 4 16 2
      ⟨[1, 1], [0, 0]⟩).2 (Or.inl rfl)

/-- C9: for every config built by BayerConfig::new, bayer_idx(x,y) is below
the matrix length for all x,y; and for every strategy prepared for width w
on an input of shape (w,h) with w at least the matrix side 2^order, every
tiled-cache, input and output access is in bounds: apply never ends in an
out-of-bounds panic. -/
theorem C9_apply_memory_safe :
    ∀ (order : ℕ) (matrix : List ℚ) (mp : List ColorMapElement)
      (cfg : BayerConfig),
      BayerConfig.new order matrix mp = some cfg →
      (∀ x y, cfg.bayer_idx x y < cfg.matrix.length) ∧
      (∀ (in_buf : List ℚ) (w h L : ℕ) (sd : SimdFixedData),
        2 ^ cfg.order ≤ w → in_buf.length = w * h →
        ScalarStrategy.run cfg in_buf w h (w * h) ≠ .panic .indexOOB ∧
        (SimdFixed.new L cfg = some sd →
          SimdFixedStrategy.run cfg sd in_buf w h (w * h) ≠ .panic .indexOOB) ∧
        (0 < L →
          SimdFitStrategy.run L cfg in_buf w h (w * h) ≠ .panic .indexOOB)) := by
  intro order matrix mp cfg hnew
  obtain ⟨hmx, hmp, hord, hmask, hlen⟩ := BayerConfig_new_inv order matrix mp cfg hnew
  have hmask2 : cfg.side_mask = 1 <<< cfg.order - 1 := by rw [hmask, hord]
  refine ⟨bayer_idx_lt cfg hmask2 (by rw [← hord] at hlen; exact hlen), ?_⟩
  intro in_buf w h L sd hw hbuf
  have hwshift : 1 <<< cfg.order ≤ w := by
    rw [Nat.shiftLeft_eq, Nat.one_mul]
    exact hw
  have hw0 : 0 < w := by
    have h1 : (1 : ℕ) ≤ 1 <<< cfg.order := by
      rw [Nat.shiftLeft_eq, Nat.one_mul]
      exact Nat.one_le_two_pow
    omega
  have hsl := bayer_slice_le cfg hmask2 w hwshift
  have hscalar : scalar_par in_buf (w, h) (w * h) (cfg.cache_tiled_pattern w) cfg ≠
      .panic .indexOOB :=
    scalar_par_no_oob in_buf (cfg.cache_tiled_pattern w) cfg w h hw0 hsl
      (by omega)
  refine ⟨hscalar, ?_, ?_⟩
  · intro hsd
    obtain ⟨hlen2, hsc, hof⟩ := SimdFixed_new_inv L cfg sd hsd
    unfold SimdFixedStrategy.run
    rw [hsc, hof, fixed_par_eq_scalar_par]
    exact hscalar
  · intro h0
    unfold SimdFitStrategy.run
    rw [fit_par_eq_scalar_par in_buf (w, h) (w * h)
      (cfg.cache_tiled_pattern w) cfg L h0]
    exact hscalar

/-- Witness for C9 on the black/white scenario, width 4 and height 2. -/
theorem C9_apply_memory_safe_witness :
    cfgC3.bayer_idx 5 7 < cfgC3.matrix.length ∧
    ScalarStrategy.run cfgC3 (List.replicate 8 (2/5)) 4 2 (4 * 2) ≠
      .panic .indexOOB ∧
    SimdFixedStrategy.run cfgC3 ⟨[1, 1], [0, 0]⟩ (List.replicate 8 (2/5)) 4 2
      (4 * 2) ≠ .panic .indexOOB ∧
    SimdFitStrategy.run 2 cfgC3 (List.replicate 8 (2/5)) 4 2 (4 * 2) ≠
      .panic .indexOOB := by
  have hmain := C9_apply_memory_safe 1 [0, 1/2, 3/4, 1/4] mapBW cfgC3 rfl
  have hrun := hmain.2 (List.replicate 8 (2/5)) 4 2 2 ⟨[1, 1], [0, 0]⟩
    (by decide) (by decide)
  exact ⟨hmain.1 5 7, hrun.1, hrun.2.1 rfl, hrun.2.2 (by decide)⟩

/-- C1 (code bug): the Scalar apply does not write the color selected by
the threshold 1 - matrix[bayer_idx(x,y)] once the image is wider than the
matrix side: the kernels address the width-strided tiled cache with
bayer_start = (y &&& side_mask) <<< order, a stride of side instead of
width. On the 4x2 uniform-0.4 image with the order-1 scenario matrix, the
code paints pixel (0,1) black while the spec formula paints it white. -/
theorem C1_scalar_apply_threshold_divergence :
    BayerConfig.new 1 [0, 1/2, 3/4, 1/4] mapBW = some cfgC3 ∧
    ScalarStrategy.run cfgC3 (List.replicate 8 (2/5)) 4 2 8 =
      .ok [blackRGB, blackRGB, blackRGB, blackRGB,
           blackRGB, blackRGB, whiteRGB, blackRGB] ∧
    specScalarOutput cfgC3 (List.replicate 8 (2/5)) 4 2 =
      [blackRGB, blackRGB, blackRGB, blackRGB,
       whiteRGB, blackRGB, whiteRGB, blackRGB] ∧
    (KResult.ok [blackRGB, blackRGB, blackRGB, blackRGB,
      blackRGB, blackRGB, whiteRGB, blackRGB] : KResult (List RGB)) ≠
      .ok [blackRGB, blackRGB, blackRGB, blackRGB,
           whiteRGB, blackRGB, whiteRGB, blackRGB] := by
  refine ⟨rfl, ?_, ?_, by decide⟩
  · have hstep : ScalarStrategy.run cfgC3 (List.replicate 8 (2/5)) 4 2 8 =
        .ok [(scalar_scan (2/5) (1 - 0) mapBW).getD whiteRGB,
             (scalar_scan (2/5) (1 - 1/2) mapBW).getD whiteRGB,
             (scalar_scan (2/5) (1 - 0) mapBW).getD whiteRGB,
             (scalar_scan (2/5) (1 - 1/2) mapBW).getD whiteRGB,
             (scalar_scan (2/5) (1 - 0) mapBW).getD whiteRGB,
             (scalar_scan (2/5) (1 - 1/2) mapBW).getD whiteRGB,
             (scalar_scan (2/5) (1 - 3/4) mapBW).getD whiteRGB,
             (scalar_scan (2/5) (1 - 1/4) mapBW).getD whiteRGB] := rfl
    rw [hstep, pixBW_one, pixBW_half, pixBW_3q, pixBW_1q]
  · have hstep : specScalarOutput cfgC3 (List.replicate 8 (2/5)) 4 2 =
        [(scalar_scan (2/5) (1 - 0) mapBW).getD whiteRGB,
         (scalar_scan (2/5) (1 - 1/2) mapBW).getD whiteRGB,
         (scalar_scan (2/5) (1 - 0) mapBW).getD whiteRGB,
         (scalar_scan (2/5) (1 - 1/2) mapBW).getD whiteRGB,
         (scalar_scan (2/5) (1 - 3/4) mapBW).getD whiteRGB,
         (scalar_scan (2/5) (1 - 1/4) mapBW).getD whiteRGB,
         (scalar_scan (2/5) (1 - 3/4) mapBW).getD whiteRGB,
         (scalar_scan (2/5) (1 - 1/4) mapBW).getD whiteRGB] := rfl
    rw [hstep, pixBW_one, pixBW_half, pixBW_3q, pixBW_1q]

/-- C3 (code bug): on the end-to-end scenario (2x2 order-1 matrix
[0, 0.5, 0.75, 0.25], black/white palette, uniform 4x4 input of 0.4) the
threshold formula predicts even rows all black and odd rows alternating
white/black - and that is what specScalarOutput yields - but the code's
output keeps pixel (0,y) black on odd rows because of the tiled-cache
stride bug, so the output is not the predicted 2x2-periodic pattern. -/
theorem C3_end_to_end_scenario_divergence :
    ScalarStrategy.run cfgC3 (List.replicate 16 (2/5)) 4 4 16 =
      .ok [blackRGB, blackRGB, blackRGB, blackRGB,
           blackRGB, blackRGB, whiteRGB, blackRGB,
           blackRGB, blackRGB, blackRGB, blackRGB,
           blackRGB, blackRGB, whiteRGB, blackRGB] ∧
    specScalarOutput cfgC3 (List.replicate 16 (2/5)) 4 4 =
      [blackRGB, blackRGB, blackRGB, blackRGB,
       whiteRGB, blackRGB, whiteRGB, blackRGB,
       blackRGB, blackRGB, blackRGB, blackRGB,
       whiteRGB, blackRGB, whiteRGB, blackRGB] ∧
    (KResult.ok [blackRGB, blackRGB, blackRGB, blackRGB,
      blackRGB, blackRGB, whiteRGB, blackRGB,
      blackRGB, blackRGB, blackRGB, blackRGB,
      blackRGB, blackRGB, whiteRGB, blackRGB] : KResult (List RGB)) ≠
      .ok [blackRGB, blackRGB, blackRGB, blackRGB,
           whiteRGB, blackRGB, whiteRGB, blackRGB,
           blackRGB, blackRGB, blackRGB, blackRGB,
           whiteRGB, blackRGB, whiteRGB, blackRGB] := by
  refine ⟨?_, ?_, by decide⟩
  · have hstep : ScalarStrategy.run cfgC3 (List.replicate 16 (2/5)) 4 4 16 =
        .ok [(scalar_scan (2/5) (1 - 0) mapBW).getD whiteRGB,
             (scalar_scan (2/5) (1 - 1/2) mapBW).getD whiteRGB,
             (scalar_scan (2/5) (1 - 0) mapBW).getD whiteRGB,
             (scalar_scan (2/5) (1 - 1/2) mapBW).getD whiteRGB,
             (scalar_scan (2/5) (1 - 0) mapBW).getD whiteRGB,
             (scalar_scan (2/5) (1 - 1/2) mapBW).getD whiteRGB,
             (scalar_scan (2/5) (1 - 3/4) mapBW).getD whiteRGB,
             (scalar_scan (2/5) (1 - 1/4) mapBW).getD whiteRGB,
             (scalar_scan (2/5) (1 - 0) mapBW).getD whiteRGB,
             (scalar_scan (2/5) (1 - 1/2) mapBW).getD whiteRGB,
             (scalar_scan (2/5) (1 - 0) mapBW).getD whiteRGB,
             (scalar_scan (2/5) (1 - 1/2) mapBW).getD whiteRGB,
             (scalar_scan (2/5) (1 - 0) mapBW).getD whiteRGB,
             (scalar_scan (2/5) (1 - 1/2) mapBW).getD whiteRGB,
             (scalar_scan (2/5) (1 - 3/4) mapBW).getD whiteRGB,
             (scalar_scan (2/5) (1 - 1/4) mapBW).getD whiteRGB] := rfl
    rw [hstep, pixBW_one, pixBW_half, pixBW_3q, pixBW_1q]
  · have hstep : specScalarOutput cfgC3 (List.replicate 16 (2/5)) 4 4 =
        [(scalar_scan (2/5) (1 - 0) mapBW).getD whiteRGB,
         (scalar_scan (2/5) (1 - 1/2) mapBW).getD whiteRGB,
         (scalar_scan (2/5) (1 - 0) mapBW).getD whiteRGB,
         (scalar_scan (2/5) (1 - 1/2) mapBW).getD whiteRGB,
         (scalar_scan (2/5) (1 - 3/4) mapBW).getD whiteRGB,
         (scalar_scan (2/5) (1 - 1/4) mapBW).getD whiteRGB,
         (scalar_scan (2/5) (1 - 3/4) mapBW).getD whiteRGB,
         (scalar_scan (2/5) (1 - 1/4) mapBW).getD whiteRGB,
         (scalar_scan (2/5) (1 - 0) mapBW).getD whiteRGB,
         (scalar_scan (2/5) (1 - 1/2) mapBW).getD whiteRGB,
         (scalar_scan (2/5) (1 - 0) mapBW).getD whiteRGB,
         (scalar_scan (2/5) (1 - 1/2) mapBW).getD whiteRGB,
         (scalar_scan (2/5) (1 - 3/4) mapBW).getD whiteRGB,
         (scalar_scan (2/5) (1 - 1/4) mapBW).getD whiteRGB,
         (scalar_scan (2/5) (1 - 3/4) mapBW).getD whiteRGB,
         (scalar_scan (2/5) (1 - 1/4) mapBW).getD whiteRGB] := rfl
    rw [hstep, pixBW_one, pixBW_half, pixBW_3q, pixBW_1q]
